import Mathlib

/-!
Shallow embedding of the `sqlmodel-book-sample` CRUD service
(`src/models.py` and `src/main.py`): two tables (`author`, `book`) in a
relational store, and one Lean function per HTTP handler.

The store is modelled as two lists of rows kept in insertion order (SQLite
returns rows of a plain `SELECT` in rowid order, and rowids are assigned as
`max + 1`, so a scan is in insertion order).  A handler takes the store and
the parsed request body and returns the HTTP outcome together with the store
after commit; `HTTPException` becomes the `Except.error` branch carrying the
status code and the `detail` string.
-/

namespace BookSample

/-- A persisted row of the `author` table (`class Author` in models.py).
`id` is the integer primary key, assigned by the store on insert. -/
structure Author where
  id : Nat
  name : String
deriving DecidableEq, Repr

/-- A persisted row of the `book` table (`class Book` in models.py).
The `author_id` column is nullable at the storage level
(`author_id: int | None = Field(default=None, foreign_key="author.id")`). -/
structure Book where
  id : Nat
  name : String
  author_id : Option Nat
deriving DecidableEq, Repr

/-- The relational store: the two tables, rows in insertion order. -/
structure DB where
  authors : List Author
  books : List Book
deriving DecidableEq, Repr

/-- An `HTTPException(status, detail)` raised by a handler, or the 500
produced when response serialization fails. -/
structure HTTPError where
  statusCode : Nat
  detail : String
deriving DecidableEq, Repr

/-- `HTTPException(status.HTTP_404_NOT_FOUND, detail=d)`. -/
def notFound (d : String) : HTTPError := ⟨404, d⟩

/-- A response-model validation failure (pydantic error on the way out),
surfaced by the framework as a 500. -/
def internalError : HTTPError := ⟨500, "Internal Server Error"⟩

/-- Request body of `POST /authors` (`class AuthorAdd`): just a name. -/
structure AuthorAdd where
  name : String
deriving DecidableEq, Repr

/-- Response model `AuthorGet`: `id` plus `name`. -/
structure AuthorGet where
  id : Nat
  name : String
deriving DecidableEq, Repr

/-- Request body of `PATCH /authors` (`class AuthorUpdate`):
`id` required, `name` optional (absent = `None`). -/
structure AuthorUpdate where
  id : Nat
  name : Option String
deriving DecidableEq, Repr

/-- Request body of `POST /books` (`class BookAdd`): `name` plus a
required integer `author_id` (the override `author_id: int`). -/
structure BookAdd where
  name : String
  author_id : Nat
deriving DecidableEq, Repr

/-- Response model `BookGet`: `id`, `name` and a non-null `author_id`. -/
structure BookGet where
  id : Nat
  name : String
  author_id : Nat
deriving DecidableEq, Repr

/-- Response model `BookGetWithAuthor`: a `BookGet` plus its eagerly
loaded `author` (possibly `null`). -/
structure BookGetWithAuthor extends BookGet where
  author : Option AuthorGet
deriving DecidableEq, Repr

/-- Response model `AuthorGetWithBooks`: an `AuthorGet` plus its eagerly
loaded list of books. -/
structure AuthorGetWithBooks extends AuthorGet where
  books : List BookGet
deriving DecidableEq, Repr

/-- Request body of `PATCH /books` (`class BookUpdate`):
`id` required, `name` and `author_id` optional. -/
structure BookUpdate where
  id : Nat
  name : Option String
  author_id : Option Nat
deriving DecidableEq, Repr

/-- The primary key the store assigns to the next inserted author row:
SQLite rowid assignment, one more than the largest existing id. -/
def nextAuthorId (db : DB) : Nat := (db.authors.map Author.id).foldr max 0 + 1

/-- The primary key the store assigns to the next inserted book row. -/
def nextBookId (db : DB) : Nat := (db.books.map Book.id).foldr max 0 + 1

/-- `db.get(Author, i)`: primary-key lookup in the `author` table. -/
def getAuthorRow (db : DB) (i : Nat) : Option Author :=
  db.authors.find? (fun a => a.id == i)

/-- `db.get(Book, i)`: primary-key lookup in the `book` table. -/
def getBookRow (db : DB) (i : Nat) : Option Book :=
  db.books.find? (fun b => b.id == i)

/-- `AuthorGet.model_validate` applied to a row. -/
def authorGetOfRow (a : Author) : AuthorGet := ⟨a.id, a.name⟩

/-- `BookGet.model_validate` applied to a row: fails (pydantic validation
error) when the stored `author_id` is null, since `BookGet` requires an
integer. -/
def bookGetOfRow (b : Book) : Option BookGet :=
  match b.author_id with
  | some aid => some ⟨b.id, b.name, aid⟩
  | none => none

/-- Handler `add_author` (`POST /authors`): validates nothing beyond shape,
inserts the row, and returns it with the assigned id.  Never fails. -/
def add_author (db : DB) (req : AuthorAdd) : AuthorGet × DB :=
  let i := nextAuthorId db
  (⟨i, req.name⟩, { db with authors := db.authors ++ [⟨i, req.name⟩] })

/-- Handler `add_book` (`POST /books`): 404 `Unknown author_id` when the
referenced author does not exist; otherwise inserts the row and returns it. -/
def add_book (db : DB) (req : BookAdd) : Except HTTPError BookGet × DB :=
  match getAuthorRow db req.author_id with
  | none => (.error (notFound "Unknown author_id"), db)
  | some _ =>
    let i := nextBookId db
    (.ok ⟨i, req.name, req.author_id⟩,
      { db with books := db.books ++ [⟨i, req.name, some req.author_id⟩] })

/-- Handler `get_authors` (`GET /authors`): every row of the `author`
table, in scan (insertion) order. -/
def get_authors (db : DB) : List AuthorGet :=
  db.authors.map authorGetOfRow

/-- Handler `get_books` (`GET /books`): every row of the `book` table in
scan order, serialized through `BookGet`; a row with a null `author_id`
would make response serialization fail. -/
def get_books (db : DB) : Except HTTPError (List BookGet) :=
  match db.books.mapM bookGetOfRow with
  | some l => .ok l
  | none => .error internalError

/-- Handler `get_author` (`GET /authors/{author_id}`). -/
def get_author (db : DB) (author_id : Nat) : Except HTTPError AuthorGet :=
  match getAuthorRow db author_id with
  | none => .error (notFound "Unknown author_id")
  | some a => .ok (authorGetOfRow a)

/-- Handler `get_book` (`GET /books/{book_id}`). -/
def get_book (db : DB) (book_id : Nat) : Except HTTPError BookGet :=
  match getBookRow db book_id with
  | none => .error (notFound "Unknown book_id")
  | some b =>
    match bookGetOfRow b with
    | some g => .ok g
    | none => .error internalError

/-- Handler `author_details` (`GET /authors/{author_id}/details`): the
author plus its eagerly loaded (`selectinload`) books. -/
def author_details (db : DB) (author_id : Nat) : Except HTTPError AuthorGetWithBooks :=
  match getAuthorRow db author_id with
  | none => .error (notFound "Unknown author_id")
  | some a =>
    match (db.books.filter (fun b => b.author_id == some author_id)).mapM bookGetOfRow with
    | some bs => .ok ⟨authorGetOfRow a, bs⟩
    | none => .error internalError

/-- Handler `book_details` (`GET /books/{book_id}/details`): the book plus
its eagerly loaded author; `author` is null when the row's `author_id` does
not resolve to an author. -/
def book_details (db : DB) (book_id : Nat) : Except HTTPError BookGetWithAuthor :=
  match getBookRow db book_id with
  | none => .error (notFound "Unknown book_id")
  | some b =>
    match bookGetOfRow b with
    | none => .error internalError
    | some g =>
      .ok ⟨g, (b.author_id.bind (getAuthorRow db)).map authorGetOfRow⟩

/-- Handler `update_author` (`PATCH /authors`): 404 when `id` is unknown;
assigns `name` only when the request supplies one; commits and returns the
refreshed record. -/
def update_author (db : DB) (req : AuthorUpdate) : Except HTTPError AuthorGet × DB :=
  match getAuthorRow db req.id with
  | none => (.error (notFound "Unknown author.id"), db)
  | some cur =>
    let newRow : Author :=
      match req.name with
      | some n => { cur with name := n }
      | none => cur
    (.ok (authorGetOfRow newRow),
      { db with authors := db.authors.map (fun a => if a.id == req.id then newRow else a) })

/-- The field assignments of `update_book` once its checks have passed:
`name` and `author_id` are each overwritten only when supplied. -/
def applyBookUpdate (cur : Book) (req : BookUpdate) : Book :=
  let c1 : Book :=
    match req.name with
    | some n => { cur with name := n }
    | none => cur
  match req.author_id with
  | some aid => { c1 with author_id := some aid }
  | none => c1

/-- Handler `update_book` (`PATCH /books`): 404 `Unknown book.id` when the
book is missing; when the request supplies an `author_id`, 404
`Unknown book.author_id` if no such author exists — checked before any
field is assigned; otherwise applies the supplied fields, commits, and
returns the refreshed record. -/
def update_book (db : DB) (req : BookUpdate) : Except HTTPError BookGet × DB :=
  match getBookRow db req.id with
  | none => (.error (notFound "Unknown book.id"), db)
  | some cur =>
    match req.author_id with
    | some aid =>
      match getAuthorRow db aid with
      | none => (.error (notFound "Unknown book.author_id"), db)
      | some _ =>
        let newRow := applyBookUpdate cur req
        (match bookGetOfRow newRow with
          | some g => .ok g
          | none => .error internalError,
          { db with books := db.books.map (fun b => if b.id == req.id then newRow else b) })
    | none =>
      let newRow := applyBookUpdate cur req
      (match bookGetOfRow newRow with
        | some g => .ok g
        | none => .error internalError,
        { db with books := db.books.map (fun b => if b.id == req.id then newRow else b) })

/-- Handler `delete_author` (`DELETE /authors?author_id=`): 404 when the
author is missing; otherwise deletes the row, and the `cascade: "delete"`
relationship deletes every book whose `author_id` references it, in the
same commit. -/
def delete_author (db : DB) (author_id : Nat) : Except HTTPError Unit × DB :=
  match getAuthorRow db author_id with
  | none => (.error (notFound "Unknown author_id"), db)
  | some _ =>
    (.ok (),
      { authors := db.authors.filter (fun a => a.id != author_id),
        books := db.books.filter (fun b => b.author_id != some author_id) })

/-- Handler `delete_book` (`DELETE /books?book_id=`). -/
def delete_book (db : DB) (book_id : Nat) : Except HTTPError Unit × DB :=
  match getBookRow db book_id with
  | none => (.error (notFound "Unknown book_id"), db)
  | some _ =>
    (.ok (), { db with books := db.books.filter (fun b => b.id != book_id) })

/-- `init_db` (models.py): after the idempotent `create_all`, when the
`author` table is empty it inserts the seed data — two authors
(夏目漱石, 泉鏡花) and two books (坊っちゃん, 高野聖), each book created
with `author=` so its `author_id` is the matching seed author's id. -/
def init_db (db : DB) : DB :=
  if db.authors.isEmpty then
    let a1 : Author := ⟨nextAuthorId db, "夏目漱石"⟩
    let a2 : Author := ⟨a1.id + 1, "泉鏡花"⟩
    let b1 : Book := ⟨nextBookId db, "坊っちゃん", some a1.id⟩
    let b2 : Book := ⟨b1.id + 1, "高野聖", some a2.id⟩
    { authors := db.authors ++ [a1, a2], books := db.books ++ [b1, b2] }
  else db

/-- The empty store: fresh database file before `init_db` runs. -/
def emptyDB : DB := ⟨[], []⟩

/-- The stores reachable through the service: the empty store, the seed
routine, and every handler, in any order. -/
inductive Reachable : DB → Prop
  | empty : Reachable emptyDB
  | seed {db} : Reachable db → Reachable (init_db db)
  | addAuthor {db} (req : AuthorAdd) : Reachable db → Reachable (add_author db req).2
  | addBook {db} (req : BookAdd) : Reachable db → Reachable (add_book db req).2
  | updAuthor {db} (req : AuthorUpdate) : Reachable db → Reachable (update_author db req).2
  | updBook {db} (req : BookUpdate) : Reachable db → Reachable (update_book db req).2
  | delAuthor {db} (i : Nat) : Reachable db → Reachable (delete_author db i).2
  | delBook {db} (i : Nat) : Reachable db → Reachable (delete_book db i).2

/-- Referential integrity: every non-null `author_id` of a book row
resolves to an existing author row. -/
def fkOk (db : DB) : Bool :=
  db.books.all fun b =>
    match b.author_id with
    | none => true
    | some aid => db.authors.any (fun a => a.id == aid)

/-- No book row has a null `author_id`. -/
def noNullAuthorId (db : DB) : Bool :=
  db.books.all fun b => b.author_id.isSome

/-! ### Helper lemmas about the store primitives -/

theorem mem_le_foldr_max {l : List Nat} {x : Nat} (h : x ∈ l) : x ≤ l.foldr max 0 := by
  induction l with
  | nil => cases h
  | cons y ys ih =>
    rcases List.mem_cons.mp h with h1 | h2
    · subst h1; exact le_max_left x (ys.foldr max 0)
    · exact le_trans (ih h2) (le_max_right y (ys.foldr max 0))

theorem author_id_lt_next {db : DB} {a : Author} (h : a ∈ db.authors) :
    a.id < nextAuthorId db :=
  Nat.lt_succ_of_le (mem_le_foldr_max (List.mem_map_of_mem Author.id h))

theorem book_id_lt_next {db : DB} {b : Book} (h : b ∈ db.books) :
    b.id < nextBookId db :=
  Nat.lt_succ_of_le (mem_le_foldr_max (List.mem_map_of_mem Book.id h))

theorem getAuthorRow_eq_some {db : DB} {i : Nat} {a : Author}
    (h : getAuthorRow db i = some a) : a ∈ db.authors ∧ a.id = i := by
  refine ⟨List.mem_of_find?_eq_some h, ?_⟩
  have := List.find?_some h
  simpa using this

theorem getBookRow_eq_some {db : DB} {i : Nat} {b : Book}
    (h : getBookRow db i = some b) : b ∈ db.books ∧ b.id = i := by
  refine ⟨List.mem_of_find?_eq_some h, ?_⟩
  have := List.find?_some h
  simpa using this

theorem getAuthorRow_isSome_iff {db : DB} {i : Nat} :
    (getAuthorRow db i).isSome ↔ ∃ a ∈ db.authors, a.id = i := by
  unfold getAuthorRow
  rw [List.find?_isSome]
  simp

theorem getBookRow_isSome_iff {db : DB} {i : Nat} :
    (getBookRow db i).isSome ↔ ∃ b ∈ db.books, b.id = i := by
  unfold getBookRow
  rw [List.find?_isSome]
  simp

/-- A fresh row appended behind the table is the one a primary-key lookup
for its id finds, because every earlier id is strictly smaller. -/
theorem find?_append_fresh {α : Type} (key : α → Nat) (l : List α) (newRow : α)
    (hfresh : ∀ a ∈ l, key a ≠ key newRow) :
    (l ++ [newRow]).find? (fun a => key a == key newRow) = some newRow := by
  rw [List.find?_append]
  have h1 : l.find? (fun a => key a == key newRow) = none := by
    rw [List.find?_eq_none]
    intro x hx
    simpa using hfresh x hx
  simp [h1]

/-- Primary-key lookup after an in-place row update: replacing the rows
whose key is `i` by `newRow` (of key `i`) makes the lookup return `newRow`,
provided some row with key `i` was present. -/
theorem find?_map_update {α : Type} (key : α → Nat) (i : Nat) (newRow : α) (l : List α)
    (hk : key newRow = i) (hex : ∃ a ∈ l, key a = i) :
    (l.map (fun a => if key a == i then newRow else a)).find? (fun a => key a == i) =
      some newRow := by
  induction l with
  | nil => rcases hex with ⟨a, ha, _⟩; cases ha
  | cons x xs ih =>
    by_cases hx : key x = i
    · simp [List.find?_cons, hx, hk]
    · have hex' : ∃ a ∈ xs, key a = i := by
        rcases hex with ⟨a, ha, hai⟩
        rcases List.mem_cons.mp ha with rfl | ha'
        · exact absurd hai hx
        · exact ⟨a, ha', hai⟩
      have hpx : (key x == i) = false := by simpa using hx
      simp only [List.map_cons, List.find?_cons, hpx, Bool.false_eq_true, if_false]
      exact ih hex'

/-- Deleting all rows of key `i` makes the lookup for `i` fail. -/
theorem find?_filter_ne {α : Type} (key : α → Nat) (i : Nat) (l : List α) :
    (l.filter (fun a => key a != i)).find? (fun a => key a == i) = none := by
  rw [List.find?_eq_none]
  intro x hx
  have := (List.mem_filter.mp hx).2
  simpa using this

/-! ### The referential-integrity invariant, in `Prop` form -/

theorem fkOk_iff {db : DB} :
    fkOk db = true ↔
      ∀ b ∈ db.books, ∀ aid, b.author_id = some aid → ∃ a ∈ db.authors, a.id = aid := by
  unfold fkOk
  rw [List.all_eq_true]
  constructor
  · intro h b hb aid haid
    have := h b hb
    rw [haid] at this
    simpa using List.any_eq_true.mp this
  · intro h b hb
    cases hb2 : b.author_id with
    | none => simp
    | some aid =>
      simp only []
      rw [List.any_eq_true]
      simpa using h b hb aid hb2

theorem noNull_iff {db : DB} :
    noNullAuthorId db = true ↔ ∀ b ∈ db.books, b.author_id.isSome := by
  unfold noNullAuthorId
  rw [List.all_eq_true]

/-- The combined store invariant in `Prop` form: every book row carries a
non-null `author_id` that resolves to an existing author row. -/
def InvP (db : DB) : Prop :=
  ∀ b ∈ db.books, ∃ aid, b.author_id = some aid ∧ ∃ a ∈ db.authors, a.id = aid

theorem invP_fkOk {db : DB} (h : InvP db) : fkOk db = true := by
  rw [fkOk_iff]
  intro b hb aid haid
  rcases h b hb with ⟨aid', haid', ha⟩
  rw [haid] at haid'
  cases haid'
  exact ha

theorem invP_noNull {db : DB} (h : InvP db) : noNullAuthorId db = true := by
  rw [noNull_iff]
  intro b hb
  rcases h b hb with ⟨aid, haid, _⟩
  simp [haid]

/-! ### Field lemmas for the update helpers -/

theorem applyBookUpdate_id (cur : Book) (req : BookUpdate) :
    (applyBookUpdate cur req).id = cur.id := by
  unfold applyBookUpdate
  cases req.name <;> cases req.author_id <;> rfl

theorem applyBookUpdate_name (cur : Book) (req : BookUpdate) :
    (applyBookUpdate cur req).name = req.name.getD cur.name := by
  unfold applyBookUpdate
  cases req.name <;> cases req.author_id <;> rfl

theorem applyBookUpdate_author_id (cur : Book) (req : BookUpdate) :
    (applyBookUpdate cur req).author_id =
      match req.author_id with
      | some aid => some aid
      | none => cur.author_id := by
  unfold applyBookUpdate
  cases req.name <;> cases req.author_id <;> rfl

/-! ### Preservation of the invariant by every operation -/

theorem invP_empty : InvP emptyDB := by
  intro b hb
  cases hb

theorem invP_init_db {db : DB} (h : InvP db) : InvP (init_db db) := by
  unfold init_db
  by_cases he : db.authors.isEmpty
  · have hbooks : db.books = [] := by
      rw [List.eq_nil_iff_forall_not_mem]
      intro b hb
      rcases h b hb with ⟨aid, _, a, ha, _⟩
      rw [List.isEmpty_iff] at he
      rw [he] at ha
      cases ha
    rw [List.isEmpty_iff] at he
    simp only [he, hbooks, List.isEmpty_nil, if_true]
    intro b hb
    simp only [List.nil_append, List.mem_cons, List.not_mem_nil, or_false] at hb
    rcases hb with rfl | rfl
    · exact ⟨nextAuthorId db, rfl, ⟨nextAuthorId db, "夏目漱石"⟩, by simp, rfl⟩
    · exact ⟨nextAuthorId db + 1, rfl, ⟨nextAuthorId db + 1, "泉鏡花"⟩, by simp, rfl⟩
  · simp only [he, if_false]
    exact h

theorem invP_add_author {db : DB} (req : AuthorAdd) (h : InvP db) :
    InvP (add_author db req).2 := by
  unfold add_author
  intro b hb
  rcases h b hb with ⟨aid, haid, a, ha, hai⟩
  exact ⟨aid, haid, a, List.mem_append_left _ ha, hai⟩

theorem invP_add_book {db : DB} (req : BookAdd) (h : InvP db) :
    InvP (add_book db req).2 := by
  unfold add_book
  cases hga : getAuthorRow db req.author_id with
  | none => exact h
  | some a =>
    intro b hb
    rcases List.mem_append.mp hb with hb1 | hb2
    · rcases h b hb1 with ⟨aid, haid, a', ha', hai'⟩
      exact ⟨aid, haid, a', ha', hai'⟩
    · rcases List.mem_singleton.mp hb2 with rfl
      exact ⟨req.author_id, rfl, a, (getAuthorRow_eq_some hga).1, (getAuthorRow_eq_some hga).2⟩

theorem invP_update_author {db : DB} (req : AuthorUpdate) (h : InvP db) :
    InvP (update_author db req).2 := by
  unfold update_author
  cases hga : getAuthorRow db req.id with
  | none => exact h
  | some cur =>
    have hcurid : cur.id = req.id := (getAuthorRow_eq_some hga).2
    intro b hb
    rcases h b hb with ⟨aid, haid, a, ha, hai⟩
    refine ⟨aid, haid, ?_⟩
    by_cases hcase : a.id = req.id
    · refine ⟨_, List.mem_map_of_mem _ ha, ?_⟩
      rw [if_pos (by simpa using hcase)]
      have haidr : aid = req.id := by rw [← hai, hcase]
      cases req.name <;> simp [hcurid, haidr]
    · refine ⟨_, List.mem_map_of_mem _ ha, ?_⟩
      rw [if_neg (by simpa using hcase)]
      exact hai

theorem update_book_authors (db : DB) (req : BookUpdate) :
    (update_book db req).2.authors = db.authors := by
  unfold update_book
  split
  · rfl
  · split
    · split
      · rfl
      · rfl
    · rfl

theorem invP_update_book {db : DB} (req : BookUpdate) (h : InvP db) :
    InvP (update_book db req).2 := by
  intro b hb
  rw [show (update_book db req).2.authors = db.authors from update_book_authors db req]
  unfold update_book at hb
  cases hgb : getBookRow db req.id with
  | none => simp only [hgb] at hb; exact h b hb
  | some cur =>
    have hcur : cur ∈ db.books := (getBookRow_eq_some hgb).1
    simp only [hgb] at hb
    cases hra : req.author_id with
    | some aid =>
      simp only [hra] at hb
      cases hga : getAuthorRow db aid with
      | none => simp only [hga] at hb; exact h b hb
      | some a =>
        simp only [hga] at hb
        rcases List.mem_map.mp hb with ⟨b0, hb0, rfl⟩
        by_cases hcase : b0.id = req.id
        · rw [if_pos (by simpa using hcase)]
          refine ⟨aid, ?_, a, (getAuthorRow_eq_some hga).1, (getAuthorRow_eq_some hga).2⟩
          rw [applyBookUpdate_author_id, hra]
        · rw [if_neg (by simpa using hcase)]
          exact h b0 hb0
    | none =>
      simp only [hra] at hb
      rcases List.mem_map.mp hb with ⟨b0, hb0, rfl⟩
      by_cases hcase : b0.id = req.id
      · rw [if_pos (by simpa using hcase)]
        rcases h cur hcur with ⟨aid, haid, a, ha, hai⟩
        refine ⟨aid, ?_, a, ha, hai⟩
        rw [applyBookUpdate_author_id, hra]
        exact haid
      · rw [if_neg (by simpa using hcase)]
        exact h b0 hb0

theorem invP_delete_author {db : DB} (i : Nat) (h : InvP db) :
    InvP (delete_author db i).2 := by
  unfold delete_author
  cases hga : getAuthorRow db i with
  | none => exact h
  | some a0 =>
    intro b hb
    have hb' := List.mem_filter.mp hb
    rcases h b hb'.1 with ⟨aid, haid, a, ha, hai⟩
    have hne : aid ≠ i := by
      intro hcontr
      rw [hcontr] at haid
      rw [haid] at hb'
      simp at hb'
    refine ⟨aid, haid, a, ?_, hai⟩
    rw [List.mem_filter]
    refine ⟨ha, ?_⟩
    simp [hai, hne]

theorem invP_delete_book {db : DB} (i : Nat) (h : InvP db) :
    InvP (delete_book db i).2 := by
  unfold delete_book
  cases hgb : getBookRow db i with
  | none => exact h
  | some b0 =>
    intro b hb
    exact h b (List.mem_filter.mp hb).1

/-! ### Serialization helper lemmas -/

theorem mapM_eq_some_of_forall {α β : Type} (f : α → Option β) (g : α → β) (l : List α)
    (h : ∀ x ∈ l, f x = some (g x)) : l.mapM f = some (l.map g) := by
  induction l with
  | nil => rfl
  | cons x xs ih =>
    rw [List.mapM_cons, h x (List.mem_cons_self x xs),
      ih (fun y hy => h y (List.mem_cons_of_mem _ hy))]
    rfl

theorem mapM_some_mem {α β : Type} (f : α → Option β) (l : List α) (l' : List β)
    (h : l.mapM f = some l') : ∀ y ∈ l', ∃ x ∈ l, f x = some y := by
  induction l generalizing l' with
  | nil =>
    rw [List.mapM_nil] at h
    cases h
    intro y hy
    cases hy
  | cons x xs ih =>
    rw [List.mapM_cons] at h
    cases hfx : f x with
    | none => rw [hfx] at h; cases h
    | some y0 =>
      rw [hfx] at h
      cases hxs : xs.mapM f with
      | none => rw [hxs] at h; cases h
      | some ys =>
        rw [hxs] at h
        have hl' : l' = y0 :: ys := by
          have : (some (y0 :: ys) : Option (List β)) = some l' := h
          exact (Option.some.injEq _ _ ▸ this).symm
        subst hl'
        intro y hy
        rcases List.mem_cons.mp hy with rfl | hy'
        · exact ⟨x, List.mem_cons_self x xs, hfx⟩
        · rcases ih ys hxs y hy' with ⟨x', hx', hfx'⟩
          exact ⟨x', List.mem_cons_of_mem x hx', hfx'⟩

theorem bookGetOfRow_of_isSome {b : Book} (h : b.author_id.isSome) :
    bookGetOfRow b = some ⟨b.id, b.name, b.author_id.getD 0⟩ := by
  unfold bookGetOfRow
  cases hb : b.author_id with
  | none => rw [hb] at h; cases h
  | some aid => simp [hb]

/-- Every reachable store satisfies the combined invariant. -/
theorem reachable_invP {db : DB} (h : Reachable db) : InvP db := by
  induction h with
  | empty => exact invP_empty
  | seed _ ih => exact invP_init_db ih
  | addAuthor req _ ih => exact invP_add_author req ih
  | addBook req _ ih => exact invP_add_book req ih
  | updAuthor req _ ih => exact invP_update_author req ih
  | updBook req _ ih => exact invP_update_book req ih
  | delAuthor i _ ih => exact invP_delete_author i ih
  | delBook i _ ih => exact invP_delete_book i ih

/-! ### The claims -/

/-- C1: a Book-creation request whose `author_id` matches no existing
Author row fails with 404 / `Unknown author_id`, and the store — in
particular the list of Book rows — is left exactly as it was. -/
theorem C1_add_book_unknown_author (db : DB) (req : BookAdd)
    (h : getAuthorRow db req.author_id = none) :
    (add_book db req).1 = .error (notFound "Unknown author_id") ∧
      (add_book db req).2 = db := by
  unfold add_book
  rw [h]
  exact ⟨rfl, rfl⟩

/-- Witness for C1: the seed store has no author 99, so adding a book
referencing author 99 fails and changes nothing. -/
theorem C1_witness :
    getAuthorRow (init_db emptyDB) 99 = none ∧
      (add_book (init_db emptyDB) ⟨"坊っちゃん2", 99⟩).1 =
        .error (notFound "Unknown author_id") ∧
      (add_book (init_db emptyDB) ⟨"坊っちゃん2", 99⟩).2 = init_db emptyDB :=
  ⟨by decide, C1_add_book_unknown_author (init_db emptyDB) ⟨"坊っちゃん2", 99⟩ (by decide)⟩

/-- C3: an Update Book request supplying an `author_id` that matches no
existing Author fails with a 404 (either `Unknown book.id` or
`Unknown book.author_id`), and the store is completely unchanged — the
referential check runs before any field assignment, so the stored Book
keeps its prior `name` and `author_id`. -/
theorem C3_update_book_unknown_author (db : DB) (req : BookUpdate) (aid : Nat)
    (hsup : req.author_id = some aid) (hmiss : getAuthorRow db aid = none) :
    ((update_book db req).1 = .error (notFound "Unknown book.id") ∨
      (update_book db req).1 = .error (notFound "Unknown book.author_id")) ∧
      (update_book db req).2 = db := by
  unfold update_book
  cases hgb : getBookRow db req.id with
  | none => exact ⟨Or.inl rfl, rfl⟩
  | some cur =>
    simp only [hsup, hmiss]
    exact ⟨Or.inr trivial, trivial⟩

/-- Witness for C3: updating seed book 1 with the unknown author 99 fails
and leaves the store as seeded. -/
theorem C3_witness :
    (⟨1, none, some 99⟩ : BookUpdate).author_id = some 99 ∧
      getAuthorRow (init_db emptyDB) 99 = none ∧
      ((update_book (init_db emptyDB) ⟨1, none, some 99⟩).1 =
          .error (notFound "Unknown book.id") ∨
        (update_book (init_db emptyDB) ⟨1, none, some 99⟩).1 =
          .error (notFound "Unknown book.author_id")) ∧
      (update_book (init_db emptyDB) ⟨1, none, some 99⟩).2 = init_db emptyDB :=
  ⟨rfl, by decide,
    C3_update_book_unknown_author (init_db emptyDB) ⟨1, none, some 99⟩ 99 rfl (by decide)⟩

/-- C4 counterexample: on an empty store the seed routine inserts two
Author rows and two Book rows, so it does not insert exactly one of each. -/
theorem C4_counterexample :
    ¬ ((init_db emptyDB).authors.length = 1 ∧ (init_db emptyDB).books.length = 1) := by
  decide

/-- C4 amended: at process start, if the Author table is empty the seed
routine inserts exactly two Author rows and two Book rows — each Book
referencing its own seed Author — with deterministic fixed names; if the
Author table is non-empty, nothing is inserted. -/
theorem C4_seed_amended (db : DB) :
    (db.authors.isEmpty = true →
      (init_db db).authors = db.authors ++
        [⟨nextAuthorId db, "夏目漱石"⟩, ⟨nextAuthorId db + 1, "泉鏡花"⟩] ∧
      (init_db db).books = db.books ++
        [⟨nextBookId db, "坊っちゃん", some (nextAuthorId db)⟩,
          ⟨nextBookId db + 1, "高野聖", some (nextAuthorId db + 1)⟩]) ∧
    (db.authors.isEmpty = false → init_db db = db) := by
  constructor
  · intro he
    unfold init_db
    rw [he]
    exact ⟨rfl, rfl⟩
  · intro he
    unfold init_db
    rw [he]
    rfl

/-- Witness for C4: the empty store gets the two seed authors and books;
a store whose author table is non-empty is left alone. -/
theorem C4_witness :
    (init_db emptyDB).authors = [⟨1, "夏目漱石"⟩, ⟨2, "泉鏡花"⟩] ∧
      (init_db emptyDB).books = [⟨1, "坊っちゃん", some 1⟩, ⟨2, "高野聖", some 2⟩] ∧
      init_db ⟨[⟨1, "既存"⟩], []⟩ = ⟨[⟨1, "既存"⟩], []⟩ := by
  refine ⟨?_, ?_, (C4_seed_amended ⟨[⟨1, "既存"⟩], []⟩).2 rfl⟩
  · have h := ((C4_seed_amended emptyDB).1 rfl).1
    simpa using h
  · have h := ((C4_seed_amended emptyDB).1 rfl).2
    simpa using h

/-- C6 counterexample: an Author-creation request with the empty name is
not rejected — the handler persists the row and returns it with an
assigned id. -/
theorem C6_counterexample :
    (add_author emptyDB ⟨""⟩).1 = ⟨1, ""⟩ ∧
      (add_author emptyDB ⟨""⟩).2.authors = [⟨1, ""⟩] := by
  decide

/-- C6 amended: Create Author performs no name validation at all — for
every request, empty name included, it returns a new Author whose id is
fresh (store-assigned, larger than every existing id) and whose name is
exactly the request's name, appending exactly that row and touching no
Book. -/
theorem C6_add_author_amended (db : DB) (req : AuthorAdd) :
    (add_author db req).1.name = req.name ∧
    (∀ a ∈ db.authors, a.id < (add_author db req).1.id) ∧
    (add_author db req).2.authors =
      db.authors ++ [⟨(add_author db req).1.id, req.name⟩] ∧
    (add_author db req).2.books = db.books := by
  refine ⟨rfl, ?_, rfl, rfl⟩
  intro a ha
  exact author_id_lt_next ha

/-- C5: referential integrity holds at every reachable store — a store is
reachable exactly when it arises from the empty store by the seed routine
and any sequence of handler calls, each of which checks author existence
before its write, within the single step that also performs the write. -/
theorem C5_fk_invariant (db : DB) (h : Reachable db) : fkOk db = true :=
  invP_fkOk (reachable_invP h)

/-- Witness for C5: the seeded store satisfies referential integrity. -/
theorem C5_witness : fkOk (init_db emptyDB) = true :=
  C5_fk_invariant (init_db emptyDB) (Reachable.seed Reachable.empty)

/-- The row appended by `add_author` is the one a primary-key lookup for
the returned id finds — every pre-existing id is strictly smaller. -/
theorem getAuthorRow_add (db : DB) (req : AuthorAdd) :
    getAuthorRow (add_author db req).2 (nextAuthorId db) =
      some ⟨nextAuthorId db, req.name⟩ :=
  find?_append_fresh Author.id db.authors ⟨nextAuthorId db, req.name⟩
    (fun _ ha => Nat.ne_of_lt (author_id_lt_next ha))

/-- C7: creating an Author and immediately getting it by the returned id
yields exactly the record the create operation returned — same id, same
name — for every store and every name. -/
theorem C7_author_roundtrip (db : DB) (req : AuthorAdd) :
    get_author (add_author db req).2 (add_author db req).1.id =
      .ok (add_author db req).1 := by
  have h := getAuthorRow_add db req
  unfold get_author
  rw [show (add_author db req).1.id = nextAuthorId db from rfl, h]
  rfl

/-- C10: on every reachable store no Book row has a null `author_id`, so
the `author: null` branch of Get Book with Author is unreachable: every
successful `book_details` response carries a non-null author. -/
theorem C10_no_null_author (db : DB) (h : Reachable db) :
    noNullAuthorId db = true ∧
      ∀ i r, book_details db i = .ok r → r.author.isSome := by
  have hinv := reachable_invP h
  refine ⟨invP_noNull hinv, ?_⟩
  intro i r hr
  unfold book_details at hr
  cases hgb : getBookRow db i with
  | none => rw [hgb] at hr; cases hr
  | some b =>
    rw [hgb] at hr
    rcases hinv b (getBookRow_eq_some hgb).1 with ⟨aid, haid, a, ha, hai⟩
    simp only [bookGetOfRow, haid, Option.some_bind] at hr
    injection hr with hr2
    rw [← hr2]
    show ((getAuthorRow db aid).map authorGetOfRow).isSome = true
    rw [Option.isSome_map']
    exact getAuthorRow_isSome_iff.mpr ⟨a, ha, hai⟩

/-- Witness for C10: on the seeded store every book has a non-null
`author_id` and every successful details response carries an author. -/
theorem C10_witness :
    noNullAuthorId (init_db emptyDB) = true ∧
      ∀ i r, book_details (init_db emptyDB) i = .ok r → r.author.isSome :=
  C10_no_null_author (init_db emptyDB) (Reachable.seed Reachable.empty)

/-- What `update_author` does when the id exists: it answers with the
record carrying the new name (the old one when the request omits `name`)
and overwrites the row in place. -/
theorem update_author_found (db : DB) (req : AuthorUpdate) (cur : Author)
    (hcur : getAuthorRow db req.id = some cur) :
    update_author db req =
      (.ok ⟨cur.id, req.name.getD cur.name⟩,
        ⟨db.authors.map
            (fun a => if a.id == req.id then ⟨cur.id, req.name.getD cur.name⟩ else a),
          db.books⟩) := by
  unfold update_author
  rw [hcur]
  cases req.name with
  | none => rfl
  | some n => rfl

/-- C8: Update Author on an existing id applies exactly the supplied
fields — a request omitting `name` leaves the stored name unchanged, a
request supplying `name` (a no-op value included) overwrites it — and the
returned record is exactly what a re-read of the row after the write
yields. -/
theorem C8_update_author (db : DB) (req : AuthorUpdate) (cur : Author)
    (hcur : getAuthorRow db req.id = some cur) :
    (update_author db req).1 = .ok ⟨cur.id, req.name.getD cur.name⟩ ∧
    getAuthorRow (update_author db req).2 req.id =
      some ⟨cur.id, req.name.getD cur.name⟩ ∧
    ∀ g, (update_author db req).1 = .ok g →
      get_author (update_author db req).2 req.id = .ok g := by
  have hid : cur.id = req.id := (getAuthorRow_eq_some hcur).2
  have hmem : cur ∈ db.authors := (getAuthorRow_eq_some hcur).1
  have hchar := update_author_found db req cur hcur
  have h1 : (update_author db req).1 = .ok ⟨cur.id, req.name.getD cur.name⟩ := by
    rw [hchar]
  have h2 : getAuthorRow (update_author db req).2 req.id =
      some ⟨cur.id, req.name.getD cur.name⟩ := by
    rw [hchar]
    exact find?_map_update Author.id req.id ⟨cur.id, req.name.getD cur.name⟩ db.authors hid
      ⟨cur, hmem, hid⟩
  refine ⟨h1, h2, ?_⟩
  intro g hg
  rw [h1] at hg
  injection hg with hg2
  unfold get_author
  rw [h2, ← hg2]
  rfl

/-- Witness for C8: renaming seed author 1 stores and returns the new
name, and the no-name request leaves the name unchanged. -/
theorem C8_witness :
    getAuthorRow (init_db emptyDB) 1 = some ⟨1, "夏目漱石"⟩ ∧
      (update_author (init_db emptyDB) ⟨1, some "三島由紀夫"⟩).1 =
        .ok ⟨1, "三島由紀夫"⟩ ∧
      getAuthorRow (update_author (init_db emptyDB) ⟨1, some "三島由紀夫"⟩).2 1 =
        some ⟨1, "三島由紀夫"⟩ := by
  have h := C8_update_author (init_db emptyDB) ⟨1, some "三島由紀夫"⟩ ⟨1, "夏目漱石"⟩ (by decide)
  exact ⟨by decide, h.1, h.2.1⟩

/-- Witness for C6: creating an author with the empty name on the seed
store succeeds and appends the row. -/
theorem C6_witness :
    (add_author (init_db emptyDB) ⟨""⟩).1.name = "" ∧
      (∀ a ∈ (init_db emptyDB).authors,
        a.id < (add_author (init_db emptyDB) ⟨""⟩).1.id) ∧
      (add_author (init_db emptyDB) ⟨""⟩).2.authors =
        (init_db emptyDB).authors ++ [⟨(add_author (init_db emptyDB) ⟨""⟩).1.id, ""⟩] :=
  ⟨(C6_add_author_amended (init_db emptyDB) ⟨""⟩).1,
    (C6_add_author_amended (init_db emptyDB) ⟨""⟩).2.1,
    (C6_add_author_amended (init_db emptyDB) ⟨""⟩).2.2.1⟩

/-- C9: List Authors returns every author row, in insertion order, and on
every reachable store List Books succeeds and returns every book row, in
insertion order, with id, name and author_id taken from the rows.
Neither operation can fail (List Books could only fail on a null
`author_id`, which no reachable store contains). -/
theorem C9_lists (db : DB) (h : Reachable db) :
    get_authors db = db.authors.map (fun a => ⟨a.id, a.name⟩) ∧
    ∃ l, get_books db = .ok l ∧
      l.map BookGet.id = db.books.map Book.id ∧
      l.map BookGet.name = db.books.map Book.name ∧
      l.map (fun g => some g.author_id) = db.books.map Book.author_id := by
  have hinv := reachable_invP h
  have hall : ∀ b ∈ db.books,
      bookGetOfRow b = some ⟨b.id, b.name, b.author_id.getD 0⟩ := by
    intro b hb
    rcases hinv b hb with ⟨aid, haid, _⟩
    exact bookGetOfRow_of_isSome (by simp [haid])
  refine ⟨rfl,
    ⟨db.books.map (fun b => ⟨b.id, b.name, b.author_id.getD 0⟩), ?_, ?_, ?_, ?_⟩⟩
  · unfold get_books
    rw [mapM_eq_some_of_forall bookGetOfRow
      (fun b => ⟨b.id, b.name, b.author_id.getD 0⟩) db.books hall]
  · rw [List.map_map]
    rfl
  · rw [List.map_map]
    rfl
  · rw [List.map_map]
    apply List.map_congr_left
    intro b hb
    rcases hinv b hb with ⟨aid, haid, _⟩
    simp [Function.comp, haid]

/-- Witness for C9: the two listings on the seeded store. -/
theorem C9_witness :
    get_authors (init_db emptyDB) =
      (init_db emptyDB).authors.map (fun a => ⟨a.id, a.name⟩) ∧
    ∃ l, get_books (init_db emptyDB) = .ok l ∧
      l.map BookGet.id = (init_db emptyDB).books.map Book.id ∧
      l.map BookGet.name = (init_db emptyDB).books.map Book.name ∧
      l.map (fun g => some g.author_id) = (init_db emptyDB).books.map Book.author_id :=
  C9_lists (init_db emptyDB) (Reachable.seed Reachable.empty)

/-- C2: deleting an existing Author removes, in the single atomic step of
the operation, the Author row together with exactly the Book rows whose
`author_id` referenced it: the delete succeeds, the Author is gone, no
remaining Book references it, every other Book survives, a subsequent
List Books contains no book of that author, and Get Book on a cascaded
Book's id answers 404 `Unknown book_id`.  Book ids are assumed pairwise
distinct, as the store assigns them. -/
theorem C2_delete_author_cascade (db : DB) (i : Nat)
    (hex : (getAuthorRow db i).isSome = true)
    (hnd : (db.books.map Book.id).Nodup) :
    (delete_author db i).1 = .ok () ∧
    getAuthorRow (delete_author db i).2 i = none ∧
    (∀ b ∈ (delete_author db i).2.books, b.author_id ≠ some i) ∧
    (∀ b ∈ db.books, b.author_id ≠ some i → b ∈ (delete_author db i).2.books) ∧
    (∀ l, get_books (delete_author db i).2 = .ok l → ∀ g ∈ l, g.author_id ≠ i) ∧
    (∀ b ∈ db.books, b.author_id = some i →
      get_book (delete_author db i).2 b.id = .error (notFound "Unknown book_id")) := by
  rcases Option.isSome_iff_exists.mp hex with ⟨a0, ha0⟩
  have hchar : delete_author db i =
      (.ok (), ⟨db.authors.filter (fun a => a.id != i),
        db.books.filter (fun b => b.author_id != some i)⟩) := by
    unfold delete_author
    rw [ha0]
  refine ⟨by rw [hchar], ?_, ?_, ?_, ?_, ?_⟩
  · simp only [hchar]
    exact find?_filter_ne Author.id i db.authors
  · simp only [hchar]
    intro b hb
    have h2 := (List.mem_filter.mp hb).2
    simpa using h2
  · simp only [hchar]
    intro b hb hbne
    exact List.mem_filter.mpr ⟨hb, by simpa using hbne⟩
  · simp only [hchar]
    intro l hl g hg
    unfold get_books at hl
    cases hm : (db.books.filter (fun b => b.author_id != some i)).mapM bookGetOfRow with
    | none => rw [hm] at hl; cases hl
    | some l0 =>
      rw [hm] at hl
      injection hl with hl2
      subst hl2
      rcases mapM_some_mem bookGetOfRow _ l0 hm g hg with ⟨b, hb, hfb⟩
      have hbne : b.author_id ≠ some i := by
        have h2 := (List.mem_filter.mp hb).2
        simpa using h2
      unfold bookGetOfRow at hfb
      cases hba : b.author_id with
      | none => rw [hba] at hfb; cases hfb
      | some aid =>
        rw [hba] at hfb
        injection hfb with hfb2
        intro hcontr
        apply hbne
        rw [hba]
        rw [← hfb2] at hcontr
        exact congrArg some hcontr
  · simp only [hchar]
    intro b hb hbi
    unfold get_book
    have hnone : getBookRow ⟨db.authors.filter (fun a => a.id != i),
        db.books.filter (fun b => b.author_id != some i)⟩ b.id = none := by
      unfold getBookRow
      rw [List.find?_eq_none]
      intro x hx hxb
      have hx1 := (List.mem_filter.mp hx).1
      have hx2 := (List.mem_filter.mp hx).2
      have hxid : x.id = b.id := by simpa using hxb
      have hxeq : x = b := List.inj_on_of_nodup_map hnd hx1 hb hxid
      rw [hxeq, hbi] at hx2
      simp at hx2
    rw [hnone]

/-- Witness for C2: deleting seed author 1 removes the author and its
book, keeps the other author's book, and book 1 is no longer gettable. -/
theorem C2_witness :
    (getAuthorRow (init_db emptyDB) 1).isSome = true ∧
      ((init_db emptyDB).books.map Book.id).Nodup ∧
      (delete_author (init_db emptyDB) 1).1 = .ok () ∧
      getAuthorRow (delete_author (init_db emptyDB) 1).2 1 = none ∧
      (∀ b ∈ (delete_author (init_db emptyDB) 1).2.books, b.author_id ≠ some 1) ∧
      (∀ b ∈ (init_db emptyDB).books, b.author_id = some 1 →
        get_book (delete_author (init_db emptyDB) 1).2 b.id =
          .error (notFound "Unknown book_id")) := by
  have h := C2_delete_author_cascade (init_db emptyDB) 1 (by decide) (by decide)
  exact ⟨by decide, by decide, h.1, h.2.1, h.2.2.1, h.2.2.2.2.2⟩

end BookSample
